import Mathlib

/-!
Shallow embedding of `exporter.py` (ookla-speedtest-exporter).

Python values flowing through the exporter are modelled by `Json`
(numbers as exact rationals; Python floats are idealized as rationals).
Python exceptions are modelled by `PyErr`; fallible operations return
`Except PyErr _`, and every `try/except` of the source becomes an
explicit `match` on the error kind.
-/

namespace Speedtest

/-- Python/JSON values as handled by the exporter.  Python `None` and JSON
`null` are both `Json.null`; Python `bool` is a separate constructor but
behaves as an integer in arithmetic contexts (see `asNum`), as in Python. -/
inductive Json where
  | null : Json
  | bool (b : Bool) : Json
  | num (q : ℚ) : Json
  | str (s : String) : Json
  | arr (xs : List Json) : Json
  | obj (kvs : List (String × Json)) : Json

/-- Kinds of Python exceptions the exporter's operations can raise. -/
inductive PyErr where
  | keyError | typeError | attributeError
  | timeoutExpired | jsonDecodeError | oSError
  deriving DecidableEq, Repr

/-- First-match lookup in an association list (Python dict lookup; the dicts
built by the exporter have unique keys). -/
def jLookup : List (String × Json) → String → Option Json
  | [], _ => none
  | (k, v) :: rest, key => if k = key then some v else jLookup rest key

/-- Python subscript `d[k]` with a string key: `KeyError` when the key is
missing from a dict, `TypeError` when the value is not a dict (strings,
lists, numbers, booleans and `None` all raise `TypeError` on a string key). -/
def subscript (d : Json) (k : String) : Except PyErr Json :=
  match d with
  | .obj kvs =>
    match jLookup kvs k with
    | some v => .ok v
    | none => .error .keyError
  | _ => .error .typeError

/-- `d[k1][k2]`. -/
def subscript2 (d : Json) (k1 k2 : String) : Except PyErr Json :=
  match subscript d k1 with
  | .ok v => subscript v k2
  | .error e => .error e

/-- `d[k1][k2][k3]`. -/
def subscript3 (d : Json) (k1 k2 k3 : String) : Except PyErr Json :=
  match subscript2 d k1 k2 with
  | .ok v => subscript v k3
  | .error e => .error e

/-- Python `d.get(k, dflt)`: `AttributeError` when `d` is not a dict.
Note that, as in Python, a stored `None` and a missing key are
indistinguishable when the default is `None`. -/
def pyGet (d : Json) (k : String) (dflt : Json) : Except PyErr Json :=
  match d with
  | .obj kvs => .ok ((jLookup kvs k).getD dflt)
  | _ => .error .attributeError

/-- Dict lookup returning `none` when the key is absent or the value is not
a dict; used only where the receiver is known to be a dict. -/
def jGet? (d : Json) (k : String) : Option Json :=
  match d with
  | .obj kvs => jLookup kvs k
  | _ => none

/-- Numeric coercion used by Python arithmetic: numbers are themselves and
booleans count as 0/1 (Python `bool` is an `int` subtype); everything else
is not a number (arithmetic on it raises `TypeError`). -/
def asNum : Json → Option ℚ
  | .num q => some q
  | .bool b => some (if b then 1 else 0)
  | _ => none

/-- Python truthiness of a value. -/
def jTruthy : Json → Bool
  | .null => false
  | .bool b => b
  | .num q => if q = 0 then false else true
  | .str s => if s = "" then false else true
  | .arr xs => !xs.isEmpty
  | .obj kvs => !kvs.isEmpty

/-- Round-half-to-even of a rational to an integer, the rounding mode of
Python's `round` (floats are idealized as exact rationals).  The floor is
computed as `q.num.fdiv q.den` (floor division by the positive denominator),
which is kernel-computable. -/
def roundHalfEven (q : ℚ) : ℤ :=
  let f := q.num.fdiv q.den
  let r := q - f
  if r < 1 / 2 then f
  else if 1 / 2 < r then f + 1
  else if f % 2 = 0 then f else f + 1

/-- Python `round(q, 2)`. -/
def pyRound2 (q : ℚ) : ℚ := (roundHalfEven (q * 100) : ℚ) / 100

/-- Source `to_mbps` (exporter.py:119-120): `round((bps * 8) / 1_000_000, 2)`. -/
def to_mbps (bps : ℚ) : ℚ := pyRound2 (bps * 8 / 1000000)

/-- `to_mbps` applied to a dict value: non-numeric operands raise `TypeError`
(in Python the composite `(v * 8) / 1_000_000` raises `TypeError` for every
non-number stored in the payload, e.g. strings and `None`). -/
def to_mbpsJ (v : Json) : Except PyErr Json :=
  match asNum v with
  | some q => .ok (.num (to_mbps q))
  | none => .error .typeError

/-- Python `str(v)` for the values the exporter passes to it.  Only the
string and integer cases are ever inspected by a property; the rendering of
other values is abstracted (no claim depends on it). -/
def pyStr (v : Json) : String :=
  match v with
  | .str s => s
  | .num q => if q.den = 1 then toString q.num else toString q
  | .bool b => if b then "True" else "False"
  | .null => "None"
  | _ => "object"

/-- A metrics dict (the value of `parse_metrics` / `_last_result`):
an insertion-ordered Python dict. -/
abbrev Mdict := List (String × Json)

/-- The body of the `try:` in `parse_metrics` (exporter.py:122-156): the dict
literal, whose value expressions are evaluated top to bottom; the first
failing access aborts with its exception.  `now` is the value `time.time()`
returns during this call. -/
def parse_metricsTry (now : ℚ) (data : Json) : Except PyErr Mdict := do
  let pingLat ← subscript2 data "ping" "latency"
  let pingJit ← subscript2 data "ping" "jitter"
  let pingLow ← subscript2 data "ping" "low"
  let pingHigh ← subscript2 data "ping" "high"
  let dlBw ← subscript2 data "download" "bandwidth"
  let dlMbps ← to_mbpsJ dlBw
  let dlBytes ← subscript2 data "download" "bytes"
  let dlElapsed ← subscript2 data "download" "elapsed"
  let dlLatLow ← subscript3 data "download" "latency" "low"
  let dlLatHigh ← subscript3 data "download" "latency" "high"
  let dlLatJit ← subscript3 data "download" "latency" "jitter"
  let ulBw ← subscript2 data "upload" "bandwidth"
  let ulMbps ← to_mbpsJ ulBw
  let ulBytes ← subscript2 data "upload" "bytes"
  let ulElapsed ← subscript2 data "upload" "elapsed"
  let ulLatLow ← subscript3 data "upload" "latency" "low"
  let ulLatHigh ← subscript3 data "upload" "latency" "high"
  let ulLatJit ← subscript3 data "upload" "latency" "jitter"
  let pl ← pyGet data "packetLoss" .null
  let serverName ← subscript2 data "server" "name"
  let serverLoc ← subscript2 data "server" "location"
  let isp ← subscript data "isp"
  let serverId ← subscript2 data "server" "id"
  let serverCountry ← subscript2 data "server" "country"
  let extIp ← subscript2 data "interface" "externalIp"
  return [
    ("ping_latency_ms", pingLat),
    ("ping_jitter_ms", pingJit),
    ("ping_low_ms", pingLow),
    ("ping_high_ms", pingHigh),
    ("download_mbps", dlMbps),
    ("download_bytes", dlBytes),
    ("download_elapsed_ms", dlElapsed),
    ("download_latency_low_ms", dlLatLow),
    ("download_latency_high_ms", dlLatHigh),
    ("download_latency_jitter_ms", dlLatJit),
    ("upload_mbps", ulMbps),
    ("upload_bytes", ulBytes),
    ("upload_elapsed_ms", ulElapsed),
    ("upload_latency_low_ms", ulLatLow),
    ("upload_latency_high_ms", ulLatHigh),
    ("upload_latency_jitter_ms", ulLatJit),
    ("packet_loss", pl),
    ("server_name", serverName),
    ("server_location", serverLoc),
    ("isp", isp),
    ("server_id", .str (pyStr serverId)),
    ("server_country", serverCountry),
    ("external_ip", extIp),
    ("timestamp", .num now),
    ("success", .num 1)]

/-- Source `parse_metrics` (exporter.py:113-159): the dict construction under
`except (KeyError, TypeError): return {}`.  The catch-all `.error` branch is
faithful because the body can only raise `KeyError` or `TypeError`
(`parse_metricsTry_err` below): the one `.get` call is reached only after a
subscript has proved `data` is a dict, so no `AttributeError` can occur. -/
def parse_metrics (now : ℚ) (data : Json) : Mdict :=
  match parse_metricsTry now data with
  | .ok l => l
  | .error _ => []

/-! ## Measurement Runner (`run_speedtest`, exporter.py:38-108) -/

/-- Behaviour of the external `subprocess.run` invocation: it either times
out (`subprocess.TimeoutExpired`), fails to launch (`OSError`, caught by the
broad `except Exception`), or completes with captured stdout/stderr text. -/
inductive ProcResult where
  | timeout : ProcResult
  | launchFailure : ProcResult
  | completed (stdout stderr : String) : ProcResult

/-- What one `run_speedtest` call produces: the parsed payload (or `none`
for every failure), and whether `FIRST_START.touch()` was executed. -/
structure RunOutcome where
  result : Option Json
  markerCreated : Bool

/-- The character `{` (written via its code point). -/
def lbrace : Char := Char.ofNat 123

/-- Python `raw.find(lbrace)` on the character list of the output:
index of the first occurrence, `none` for `-1`. -/
def findBrace : List Char → Option Nat
  | [] => none
  | c :: cs => if c = lbrace then some 0 else (findBrace cs).map (· + 1)

/-- Python `raw[i:]`. -/
def suffixFrom (s : String) (i : Nat) : String := String.mk (s.data.drop i)

/-- The argument expressions of the success-path log statements
(exporter.py:81-95) that are evaluated eagerly at the `log.info(...)` call
sites after `json.loads` succeeds; any exception among them is caught by
`except Exception` and turns the whole call into a failure.  Eager are:
`data.get("server", {}).get(...)` — needs `data` to be a dict and `server`
(when present) to be a dict (else `AttributeError`); the arithmetic
`data["download"]["bandwidth"] * 8 / 1_000_000` and its upload counterpart —
need the field present and numeric (`TypeError` otherwise, including for a
string, whose `* 8` repeats but whose division raises); and the bare
subscripts `data["ping"]["latency"]` and `data["ping"]["jitter"]` — need the
field present (`KeyError`/`TypeError`), with no constraint on its value.
The `%`-formatting itself (`%.2f` of ping, jitter, packetLoss) happens later
inside the logging handler, whose `handleError` swallows formatting errors,
so it imposes no requirement; likewise `data["packetLoss"]` at line 95 is
guarded by the line-94 `in` check and cannot raise. -/
def summaryOk (data : Json) : Bool :=
  match data with
  | .obj kvs =>
    (match jLookup kvs "server" with
     | none => true
     | some (.obj _) => true
     | some _ => false) &&
    (match subscript2 data "download" "bandwidth" with
     | .ok v => (asNum v).isSome
     | .error _ => false) &&
    (match subscript2 data "upload" "bandwidth" with
     | .ok v => (asNum v).isSome
     | .error _ => false) &&
    (match subscript2 data "ping" "latency" with
     | .ok _ => true
     | .error _ => false) &&
    (match subscript2 data "ping" "jitter" with
     | .ok _ => true
     | .error _ => false)
  | _ => false

/-- Source `run_speedtest` (exporter.py:38-108).
`firstStartExists` is `FIRST_START.exists()`; `proc` is the behaviour of the
external process; `loads` is `json.loads` (abstract: `none` when the string
is not valid JSON, `JSONDecodeError`).  All exceptions of the body are
caught (`TimeoutExpired`, `JSONDecodeError`, and the broad
`except Exception`) and yield `result = none`.  Note that on a first run
`FIRST_START.touch()` (line 75) executes as soon as a `{` is located —
before `json.loads` (line 78) and before the summary-log field accesses —
so the marker is created even when those later steps fail. -/
def run_speedtest (firstStartExists : Bool) (proc : ProcResult)
    (loads : String → Option Json) : RunOutcome :=
  let first_run := !firstStartExists
  match proc with
  | .timeout => ⟨none, false⟩
  | .launchFailure => ⟨none, false⟩
  | .completed out _err =>
    if first_run then
      match findBrace out.data with
      | none => ⟨none, false⟩
      | some i =>
        let raw := suffixFrom out i
        match loads raw with
        | none => ⟨none, true⟩
        | some d => if summaryOk d then ⟨some d, true⟩ else ⟨none, true⟩
    else
      match loads out with
      | none => ⟨none, false⟩
      | some d => if summaryOk d then ⟨some d, false⟩ else ⟨none, false⟩

/-- The string `json.loads` is applied to, when the call gets that far:
on a non-first run the whole stdout, on a first run the suffix from the
first `{` (no such call happens when no `{` is found). -/
def effectiveRaw (firstStartExists : Bool) (proc : ProcResult) : Option String :=
  match proc with
  | .completed out _ =>
    if firstStartExists then some out
    else (findBrace out.data).map (suffixFrom out)
  | _ => none

/-! ## Prometheus collector (exporter.py:172-281) -/

/-- One `GaugeMetricFamily` as the collector builds it: name, label names,
label values (`add_metric`'s first argument) and the sample value.  Help
strings are omitted (purely documentary). -/
structure Family where
  name : String
  labels : List String
  labelVals : List Json
  value : Json

/-- The failure metric set `{"success": 0.0, "timestamp": now}`
(exporter.py:202 and 207). -/
def failureDict (now : ℚ) : Mdict := [("success", .num 0), ("timestamp", .num now)]

/-- The value stored into `_last_result` by the lock holder
(exporter.py:199-209): the runner's result mapped through `parse_metrics`,
with both runner failure and an empty parse result replaced by
`failureDict`. -/
def computeResult (runRes : Option Json) (now : ℚ) : Mdict :=
  match runRes with
  | none => failureDict now
  | some d =>
    let md := parse_metrics now d
    if md.isEmpty then failureDict now else md

/-- The `(metric name, dict key)` table of `_build_metric_families`
(exporter.py:238-258). -/
def specsList : List (String × String) := [
  ("speedtest_ping_latency_ms", "ping_latency_ms"),
  ("speedtest_ping_jitter_ms", "ping_jitter_ms"),
  ("speedtest_ping_low_ms", "ping_low_ms"),
  ("speedtest_ping_high_ms", "ping_high_ms"),
  ("speedtest_download_bandwidth_mbps", "download_mbps"),
  ("speedtest_download_bytes", "download_bytes"),
  ("speedtest_download_elapsed_ms", "download_elapsed_ms"),
  ("speedtest_download_latency_low_ms", "download_latency_low_ms"),
  ("speedtest_download_latency_high_ms", "download_latency_high_ms"),
  ("speedtest_download_latency_jitter_ms", "download_latency_jitter_ms"),
  ("speedtest_upload_bandwidth_mbps", "upload_mbps"),
  ("speedtest_upload_bytes", "upload_bytes"),
  ("speedtest_upload_elapsed_ms", "upload_elapsed_ms"),
  ("speedtest_upload_latency_low_ms", "upload_latency_low_ms"),
  ("speedtest_upload_latency_high_ms", "upload_latency_high_ms"),
  ("speedtest_upload_latency_jitter_ms", "upload_latency_jitter_ms")]

/-- Python `m.get(k, dflt)` on a metrics dict. -/
def dget (m : Mdict) (k : String) (dflt : Json) : Json := (jLookup m k).getD dflt

/-- Python `m[k]` on a metrics dict (`KeyError` when absent). -/
def ditem (m : Mdict) (k : String) : Except PyErr Json :=
  match jLookup m k with
  | some v => .ok v
  | none => .error .keyError

/-- The measurement label values (exporter.py:233-235). -/
def stdLabelVals (m : Mdict) : List Json :=
  [dget m "server_name" (.str "unknown"),
   dget m "server_location" (.str "unknown"),
   dget m "isp" (.str "unknown")]

/-- The info-metric label values (exporter.py:274-276). -/
def infoLabelVals (m : Mdict) : List Json :=
  [dget m "server_id" (.str "unknown"),
   dget m "server_country" (.str "unknown"),
   dget m "external_ip" (.str "unknown")]

/-- The label-name lists of the builder. -/
def stdLabels : List String := ["server_name", "server_location", "isp"]

def infoLabels : List String := ["server_id", "server_country", "external_ip"]

/-- The two meta gauges every scrape begins with (exporter.py:219-227). -/
def baseFamilies (m : Mdict) : List Family :=
  [⟨"speedtest_scrape_success", [], [], dget m "success" (.num 0)⟩,
   ⟨"speedtest_last_run_timestamp", [], [], dget m "timestamp" (.num 0)⟩]

/-- Source `_build_metric_families` (exporter.py:214-281) with the generator
run to completion: `.ok` is the list of yielded families; `.error` models an
exception escaping mid-generation (in the source, `m[key]` raising
`KeyError` inside the loop at line 261, which would abort the scrape). -/
def build_metric_families (m : Mdict) : Except PyErr (List Family) :=
  let success := dget m "success" (.num 0)
  if jTruthy success = false then .ok (baseFamilies m)
  else
    match specsList.mapM
        (fun nk => (ditem m nk.2).map
          (fun v => (⟨nk.1, stdLabels, stdLabelVals m, v⟩ : Family))) with
    | .error e => .error e
    | .ok numFams =>
      let plFams : List Family :=
        match dget m "packet_loss" .null with
        | .null => []
        | v => [⟨"speedtest_packet_loss", stdLabels, stdLabelVals m, v⟩]
      .ok (baseFamilies m ++ numFams ++ plFams ++
           [⟨"speedtest_info", infoLabels, infoLabelVals m, .num 1⟩])

/-! ## Cached mode (spec §4.4/§8; not present under `src/`) -/

/-- Modelled from the spec: the repository's source contains only the
on_demand collector; the cached mode (a Cache Store whose `read()` yields a
payload, `Absent` before the first write, or `ReadError` on malformed
content) described in spec §4.2/§4.4 has no code under `src/`. -/
inductive CacheRead where
  | absent : CacheRead
  | readError : CacheRead
  | payload (raw : Json) : CacheRead

/-- Modelled from the spec (§4.4 "cached"): absent file maps to a failure
metric set with timestamp 0.0; malformed content to a failure set with the
current timestamp; a valid payload to the Mapper transform (degrading to the
failure branch when mapping fails). -/
def cachedCollect (r : CacheRead) (now : ℚ) : Mdict :=
  match r with
  | .absent => [("success", .num 0), ("timestamp", .num 0)]
  | .readError => failureDict now
  | .payload d =>
    let md := parse_metrics now d
    if md.isEmpty then failureDict now else md

/-! ## On-demand concurrency model (`SpeedtestCollector._collect`,
exporter.py:164-212)

Each scrape is handled by one thread executing `_collect`.  The shared
state is `_speedtest_lock` (holder recorded), `_speedtest_running`, and
`_last_result`; `invocations` counts completed `run_speedtest` calls.
The lines 196-212 (set the running flag, run the speedtest, store the
result, clear the flag, read `_last_result` back and return it) are taken
as one atomic step: the thread holds the lock throughout, and the only
shared reads other threads perform without the lock (`_speedtest_running`
at line 185) see `running = true` from the moment the `checkMiss` step
fires until the `run` step fires, matching the source's window between
line 196 and line 211. -/

/-- Program counter of one scrape thread through `_collect`. -/
inductive PC where
  | entry    -- about to read `_speedtest_running` without the lock (line 185)
  | waitLock -- about to acquire / blocked on `_speedtest_lock` (line 189)
  | check    -- holding the lock, at the line-192 test
  | invoke   -- holding the lock, `running` set, executing the speedtest
  | done     -- `_collect` returned
  deriving DecidableEq

/-- One thread: program counter, local `was_waiting`, and the value its
`_collect` call returned (once `done`). -/
structure TState where
  pc : PC
  wasWaiting : Bool
  res : Option Mdict

/-- The process-wide state for `n` scrape threads. -/
structure Sys (n : ℕ) where
  lock : Option (Fin n)
  running : Bool
  last : Option Mdict
  invocations : ℕ
  thr : Fin n → TState

/-- The metrics dict stored by the `k`-th external invocation, where
`outs k` gives that invocation's runner outcome and clock reading. -/
def runResult (outs : ℕ → Option Json × ℚ) (k : ℕ) : Mdict :=
  computeResult (outs k).1 (outs k).2

/-- Interleaving semantics of `_collect`. -/
inductive Step {n : ℕ} (outs : ℕ → Option Json × ℚ) : Sys n → Sys n → Prop where
  | entry (s : Sys n) (i : Fin n) (h : (s.thr i).pc = .entry) :
      Step outs s { s with
        thr := Function.update s.thr i ⟨.waitLock, s.running, (s.thr i).res⟩ }
  | acquire (s : Sys n) (i : Fin n) (h : (s.thr i).pc = .waitLock)
      (hl : s.lock = none) :
      Step outs s { s with
        lock := some i,
        thr := Function.update s.thr i
          ⟨.check, (s.thr i).wasWaiting, (s.thr i).res⟩ }
  | checkHit (s : Sys n) (i : Fin n) (r : Mdict) (h : (s.thr i).pc = .check)
      (hw : (s.thr i).wasWaiting = true) (hr : s.last = some r) :
      Step outs s { s with
        lock := none,
        thr := Function.update s.thr i ⟨.done, (s.thr i).wasWaiting, some r⟩ }
  | checkMiss (s : Sys n) (i : Fin n) (h : (s.thr i).pc = .check)
      (hw : (s.thr i).wasWaiting = false ∨ s.last = none) :
      Step outs s { s with
        running := true,
        thr := Function.update s.thr i
          ⟨.invoke, (s.thr i).wasWaiting, (s.thr i).res⟩ }
  | run (s : Sys n) (i : Fin n) (h : (s.thr i).pc = .invoke) :
      Step outs s { s with
        lock := none,
        running := false,
        last := some (runResult outs s.invocations),
        invocations := s.invocations + 1,
        thr := Function.update s.thr i
          ⟨.done, (s.thr i).wasWaiting, some (runResult outs s.invocations)⟩ }

/-- Reachability under the interleaving semantics. -/
def Reach {n : ℕ} (outs : ℕ → Option Json × ℚ) : Sys n → Sys n → Prop :=
  Relation.ReflTransGen (Step outs)

/-- The state at process start: lock free, `_speedtest_running = False`,
`_last_result = None`, all threads about to enter `_collect`. -/
def initAll (n : ℕ) : Sys n :=
  { lock := none, running := false, last := none, invocations := 0,
    thr := fun _ => ⟨.entry, false, none⟩ }

/-- A thread inside the `with _speedtest_lock:` block holds the lock. -/
def MutexInv {n : ℕ} (s : Sys n) : Prop :=
  ∀ i : Fin n, ((s.thr i).pc = .check ∨ (s.thr i).pc = .invoke) → s.lock = some i

/-- The local state of a scrape that arrived while a run was in flight:
it read `_speedtest_running = True` at line 185 and is blocked on the
lock. -/
def waiterInit : TState := ⟨.waitLock, true, none⟩

/-- The claim's scenario: thread `0` holds the lock with a measurement in
flight (`k0` invocations completed so far, `_last_result = l0`), and `n`
further scrapes arrived while it is in flight. -/
def initInflight (n k0 : ℕ) (l0 : Option Mdict) : Sys (n + 1) :=
  { lock := some 0, running := true, last := l0, invocations := k0,
    thr := fun i => if i = 0 then ⟨.invoke, false, none⟩ else waiterInit }

/-- Scenario invariant, phase A: the measurement is still in flight. -/
def InvA {n : ℕ} (k0 : ℕ) (s : Sys (n + 1)) : Prop :=
  s.lock = some 0 ∧ s.running = true ∧ s.invocations = k0 ∧
  s.thr 0 = ⟨.invoke, false, none⟩ ∧ ∀ j, j ≠ 0 → s.thr j = waiterInit

/-- Scenario invariant, phase B: the in-flight run finished; its dict is in
`_last_result`, no further invocation ever starts, and every waiter is
blocked, at the check, or done with that dict. -/
def InvB {n : ℕ} (outs : ℕ → Option Json × ℚ) (k0 : ℕ) (s : Sys (n + 1)) : Prop :=
  s.invocations = k0 + 1 ∧ s.last = some (runResult outs k0) ∧
  s.thr 0 = ⟨.done, false, some (runResult outs k0)⟩ ∧
  ∀ j, j ≠ 0 →
    (s.thr j = waiterInit ∨ s.thr j = ⟨.check, true, none⟩ ∨
     s.thr j = ⟨.done, true, some (runResult outs k0)⟩)

/-! ## Derived definitions used by the statements and proofs -/

/-- Replace the value stored at key `"timestamp"`. -/
def setTimestamp (t : ℚ) (l : Mdict) : Mdict :=
  l.map (fun kv => if kv.1 = "timestamp" then (kv.1, Json.num t) else kv)

/-- Characterization of the per-measurement gauges the builder's loop
yields when every key is present. -/
def numFamilies (m : Mdict) : List Family :=
  specsList.map (fun nk =>
    ⟨nk.1, stdLabels, stdLabelVals m, (jLookup m nk.2).getD .null⟩)

/-- Characterization of the conditional packet-loss gauge. -/
def plFamilies (m : Mdict) : List Family :=
  match dget m "packet_loss" .null with
  | .null => []
  | v => [⟨"speedtest_packet_loss", stdLabels, stdLabelVals m, v⟩]

/-- Characterization of the info gauge. -/
def infoFamily (m : Mdict) : Family :=
  ⟨"speedtest_info", infoLabels, infoLabelVals m, .num 1⟩

/-- A concrete successful payload (12.5 MB/s download, 2.5 MB/s upload). -/
def d0 : Json := .obj [
  ("ping", .obj [("latency", .num 10), ("jitter", .num 2), ("low", .num 8),
    ("high", .num 12)]),
  ("download", .obj [("bandwidth", .num 12500000), ("bytes", .num 1000),
    ("elapsed", .num 5000),
    ("latency", .obj [("low", .num 9), ("high", .num 15), ("jitter", .num 3)])]),
  ("upload", .obj [("bandwidth", .num 2500000), ("bytes", .num 500),
    ("elapsed", .num 4000),
    ("latency", .obj [("low", .num 7), ("high", .num 14), ("jitter", .num 2)])]),
  ("packetLoss", .num 1),
  ("server", .obj [("name", .str "S"), ("location", .str "L"), ("id", .num 42),
    ("country", .str "C")]),
  ("isp", .str "I"),
  ("interface", .obj [("externalIp", .str "1.2.3.4")])]

/-- The payload `d0` with `packetLoss` stored as JSON `null`: the field is
present in the payload, but Python `data.get("packetLoss")` returns `None`
for it, indistinguishably from absence. -/
def d1 : Json := .obj [
  ("ping", .obj [("latency", .num 10), ("jitter", .num 2), ("low", .num 8),
    ("high", .num 12)]),
  ("download", .obj [("bandwidth", .num 12500000), ("bytes", .num 1000),
    ("elapsed", .num 5000),
    ("latency", .obj [("low", .num 9), ("high", .num 15), ("jitter", .num 3)])]),
  ("upload", .obj [("bandwidth", .num 2500000), ("bytes", .num 500),
    ("elapsed", .num 4000),
    ("latency", .obj [("low", .num 7), ("high", .num 14), ("jitter", .num 2)])]),
  ("packetLoss", .null),
  ("server", .obj [("name", .str "S"), ("location", .str "L"), ("id", .num 42),
    ("country", .str "C")]),
  ("isp", .str "I"),
  ("interface", .obj [("externalIp", .str "1.2.3.4")])]

/-- A runner environment for the concurrency witness: every invocation
fails and reads clock 5. -/
def outsW : ℕ → Option Json × ℚ := fun _ => (none, 5)

/-- Concurrency witness scenario: one in-flight run (thread 0), one waiter
(thread 1). -/
def wS0 : Sys 2 := initInflight 1 0 none

/-- State after thread 0's run step. -/
def wS1 : Sys 2 := { wS0 with
  lock := none,
  running := false,
  last := some (runResult outsW wS0.invocations),
  invocations := wS0.invocations + 1,
  thr := Function.update wS0.thr 0
    ⟨.done, (wS0.thr 0).wasWaiting, some (runResult outsW wS0.invocations)⟩ }

/-- State after the waiter acquires the lock. -/
def wS2 : Sys 2 := { wS1 with
  lock := some 1,
  thr := Function.update wS1.thr 1
    ⟨.check, (wS1.thr 1).wasWaiting, (wS1.thr 1).res⟩ }

/-- State after the waiter returns the shared result. -/
def wS3 : Sys 2 := { wS2 with
  lock := none,
  thr := Function.update wS2.thr 1
    ⟨.done, (wS2.thr 1).wasWaiting, some (runResult outsW 0)⟩ }

/-! ## Lemmas -/

lemma subscript_err {d : Json} {k : String} {e : PyErr}
    (h : subscript d k = .error e) : e = .keyError ∨ e = .typeError := by
  cases d with
  | obj kvs =>
    simp only [subscript] at h
    split at h
    · exact Except.noConfusion h
    · injection h with h2
      exact Or.inl h2.symm
  | null => injection h with h2; exact Or.inr h2.symm
  | bool b => injection h with h2; exact Or.inr h2.symm
  | num q => injection h with h2; exact Or.inr h2.symm
  | str s => injection h with h2; exact Or.inr h2.symm
  | arr xs => injection h with h2; exact Or.inr h2.symm

lemma subscript2_err {d : Json} {k1 k2 : String} {e : PyErr}
    (h : subscript2 d k1 k2 = .error e) : e = .keyError ∨ e = .typeError := by
  unfold subscript2 at h
  split at h
  · exact subscript_err h
  · rename_i e1 he1
    injection h with h2
    subst h2
    exact subscript_err he1

lemma subscript3_err {d : Json} {k1 k2 k3 : String} {e : PyErr}
    (h : subscript3 d k1 k2 k3 = .error e) : e = .keyError ∨ e = .typeError := by
  unfold subscript3 at h
  split at h
  · exact subscript_err h
  · rename_i e1 he1
    injection h with h2
    subst h2
    exact subscript2_err he1

lemma to_mbpsJ_err {v : Json} {e : PyErr}
    (h : to_mbpsJ v = .error e) : e = .keyError ∨ e = .typeError := by
  unfold to_mbpsJ at h
  split at h
  · exact Except.noConfusion h
  · injection h with h2
    exact Or.inr h2.symm

lemma parse_metricsTry_err {now : ℚ} {d : Json} {e : PyErr}
    (h : parse_metricsTry now d = .error e) : e = .keyError ∨ e = .typeError := by
  cases d with
  | null => injection h with h2; exact Or.inr h2.symm
  | bool b => injection h with h2; exact Or.inr h2.symm
  | num q => injection h with h2; exact Or.inr h2.symm
  | str s => injection h with h2; exact Or.inr h2.symm
  | arr xs => injection h with h2; exact Or.inr h2.symm
  | obj kvs =>
    rw [parse_metricsTry] at h
    simp only [bind, Except.bind, pure, Except.pure] at h
    split at h
    · rename_i e1 heq1
      injection h with h2
      subst h2
      exact subscript2_err heq1
    rename_i v1 hv1
    split at h
    · rename_i e2 heq2
      injection h with h2
      subst h2
      exact subscript2_err heq2
    rename_i v2 hv2
    split at h
    · rename_i e3 heq3
      injection h with h2
      subst h2
      exact subscript2_err heq3
    rename_i v3 hv3
    split at h
    · rename_i e4 heq4
      injection h with h2
      subst h2
      exact subscript2_err heq4
    rename_i v4 hv4
    split at h
    · rename_i e5 heq5
      injection h with h2
      subst h2
      exact subscript2_err heq5
    rename_i v5 hv5
    split at h
    · rename_i e6 heq6
      injection h with h2
      subst h2
      exact to_mbpsJ_err heq6
    rename_i v6 hv6
    split at h
    · rename_i e7 heq7
      injection h with h2
      subst h2
      exact subscript2_err heq7
    rename_i v7 hv7
    split at h
    · rename_i e8 heq8
      injection h with h2
      subst h2
      exact subscript2_err heq8
    rename_i v8 hv8
    split at h
    · rename_i e9 heq9
      injection h with h2
      subst h2
      exact subscript3_err heq9
    rename_i v9 hv9
    split at h
    · rename_i e10 heq10
      injection h with h2
      subst h2
      exact subscript3_err heq10
    rename_i v10 hv10
    split at h
    · rename_i e11 heq11
      injection h with h2
      subst h2
      exact subscript3_err heq11
    rename_i v11 hv11
    split at h
    · rename_i e12 heq12
      injection h with h2
      subst h2
      exact subscript2_err heq12
    rename_i v12 hv12
    split at h
    · rename_i e13 heq13
      injection h with h2
      subst h2
      exact to_mbpsJ_err heq13
    rename_i v13 hv13
    split at h
    · rename_i e14 heq14
      injection h with h2
      subst h2
      exact subscript2_err heq14
    rename_i v14 hv14
    split at h
    · rename_i e15 heq15
      injection h with h2
      subst h2
      exact subscript2_err heq15
    rename_i v15 hv15
    split at h
    · rename_i e16 heq16
      injection h with h2
      subst h2
      exact subscript3_err heq16
    rename_i v16 hv16
    split at h
    · rename_i e17 heq17
      injection h with h2
      subst h2
      exact subscript3_err heq17
    rename_i v17 hv17
    split at h
    · rename_i e18 heq18
      injection h with h2
      subst h2
      exact subscript3_err heq18
    rename_i v18 hv18
    split at h
    · rename_i e19 heq19
      exact Except.noConfusion heq19
    rename_i v19 hv19
    split at h
    · rename_i e20 heq20
      injection h with h2
      subst h2
      exact subscript2_err heq20
    rename_i v20 hv20
    split at h
    · rename_i e21 heq21
      injection h with h2
      subst h2
      exact subscript2_err heq21
    rename_i v21 hv21
    split at h
    · rename_i e22 heq22
      injection h with h2
      subst h2
      exact subscript_err heq22
    rename_i v22 hv22
    split at h
    · rename_i e23 heq23
      injection h with h2
      subst h2
      exact subscript2_err heq23
    rename_i v23 hv23
    split at h
    · rename_i e24 heq24
      injection h with h2
      subst h2
      exact subscript2_err heq24
    rename_i v24 hv24
    split at h
    · rename_i e25 heq25
      injection h with h2
      subst h2
      exact subscript2_err heq25
    rename_i v25 hv25
    exact Except.noConfusion h

lemma parse_ok_facts {now : ℚ} {d : Json} {l : Mdict}
    (h : parse_metricsTry now d = .ok l) :
    (∃ kvs, d = .obj kvs ∧
      jLookup l "packet_loss" = some ((jLookup kvs "packetLoss").getD .null)) ∧
    (∃ bw q, subscript2 d "download" "bandwidth" = .ok bw ∧ asNum bw = some q ∧
      jLookup l "download_mbps" = some (.num (to_mbps q))) ∧
    (∃ bw q, subscript2 d "upload" "bandwidth" = .ok bw ∧ asNum bw = some q ∧
      jLookup l "upload_mbps" = some (.num (to_mbps q))) ∧
    jLookup l "success" = some (.num 1) ∧
    jLookup l "timestamp" = some (.num now) ∧
    (∀ k ∈ specsList.map Prod.snd, (jLookup l k).isSome = true) ∧
    l ≠ [] := by
  rw [parse_metricsTry] at h
  simp only [bind, Except.bind, pure, Except.pure] at h
  split at h
  · exact Except.noConfusion h
  rename_i v1 hv1
  split at h
  · exact Except.noConfusion h
  rename_i v2 hv2
  split at h
  · exact Except.noConfusion h
  rename_i v3 hv3
  split at h
  · exact Except.noConfusion h
  rename_i v4 hv4
  split at h
  · exact Except.noConfusion h
  rename_i v5 hv5
  split at h
  · exact Except.noConfusion h
  rename_i v6 hv6
  split at h
  · exact Except.noConfusion h
  rename_i v7 hv7
  split at h
  · exact Except.noConfusion h
  rename_i v8 hv8
  split at h
  · exact Except.noConfusion h
  rename_i v9 hv9
  split at h
  · exact Except.noConfusion h
  rename_i v10 hv10
  split at h
  · exact Except.noConfusion h
  rename_i v11 hv11
  split at h
  · exact Except.noConfusion h
  rename_i v12 hv12
  split at h
  · exact Except.noConfusion h
  rename_i v13 hv13
  split at h
  · exact Except.noConfusion h
  rename_i v14 hv14
  split at h
  · exact Except.noConfusion h
  rename_i v15 hv15
  split at h
  · exact Except.noConfusion h
  rename_i v16 hv16
  split at h
  · exact Except.noConfusion h
  rename_i v17 hv17
  split at h
  · exact Except.noConfusion h
  rename_i v18 hv18
  split at h
  · exact Except.noConfusion h
  rename_i v19 hv19
  split at h
  · exact Except.noConfusion h
  rename_i v20 hv20
  split at h
  · exact Except.noConfusion h
  rename_i v21 hv21
  split at h
  · exact Except.noConfusion h
  rename_i v22 hv22
  split at h
  · exact Except.noConfusion h
  rename_i v23 hv23
  split at h
  · exact Except.noConfusion h
  rename_i v24 hv24
  split at h
  · exact Except.noConfusion h
  rename_i v25 hv25
  injection h with h
  subst h
  refine ⟨?_, ?_, ?_, rfl, rfl, ?_, ?_⟩
  · cases d with
    | obj kvs =>
      injection hv19 with e19
      exact ⟨kvs, rfl, by rw [e19]; rfl⟩
    | null => exact Except.noConfusion hv19
    | bool b => exact Except.noConfusion hv19
    | num q => exact Except.noConfusion hv19
    | str s => exact Except.noConfusion hv19
    | arr xs => exact Except.noConfusion hv19
  · cases hq : asNum v5 with
    | none =>
      simp only [to_mbpsJ, hq] at hv6
      exact Except.noConfusion hv6
    | some q =>
      simp only [to_mbpsJ, hq] at hv6
      injection hv6 with e6
      exact ⟨v5, q, hv5, hq, by rw [e6]; rfl⟩
  · cases hq : asNum v12 with
    | none =>
      simp only [to_mbpsJ, hq] at hv13
      exact Except.noConfusion hv13
    | some q =>
      simp only [to_mbpsJ, hq] at hv13
      injection hv13 with e6
      exact ⟨v12, q, hv12, hq, by rw [e6]; rfl⟩
  · intro k hk
    simp only [specsList, List.map_cons, List.map_nil, List.mem_cons,
      List.not_mem_nil, or_false] at hk
    rcases hk with rfl|rfl|rfl|rfl|rfl|rfl|rfl|rfl|rfl|rfl|rfl|rfl|rfl|rfl|rfl|rfl <;> rfl
  · exact List.cons_ne_nil _ _

lemma parse_metricsTry_time {t1 t2 : ℚ} {d : Json} {l : Mdict}
    (h : parse_metricsTry t1 d = .ok l) :
    parse_metricsTry t2 d = .ok (setTimestamp t2 l) := by
  rw [parse_metricsTry] at h
  simp only [bind, Except.bind, pure, Except.pure] at h
  split at h
  · exact Except.noConfusion h
  rename_i v1 hv1
  split at h
  · exact Except.noConfusion h
  rename_i v2 hv2
  split at h
  · exact Except.noConfusion h
  rename_i v3 hv3
  split at h
  · exact Except.noConfusion h
  rename_i v4 hv4
  split at h
  · exact Except.noConfusion h
  rename_i v5 hv5
  split at h
  · exact Except.noConfusion h
  rename_i v6 hv6
  split at h
  · exact Except.noConfusion h
  rename_i v7 hv7
  split at h
  · exact Except.noConfusion h
  rename_i v8 hv8
  split at h
  · exact Except.noConfusion h
  rename_i v9 hv9
  split at h
  · exact Except.noConfusion h
  rename_i v10 hv10
  split at h
  · exact Except.noConfusion h
  rename_i v11 hv11
  split at h
  · exact Except.noConfusion h
  rename_i v12 hv12
  split at h
  · exact Except.noConfusion h
  rename_i v13 hv13
  split at h
  · exact Except.noConfusion h
  rename_i v14 hv14
  split at h
  · exact Except.noConfusion h
  rename_i v15 hv15
  split at h
  · exact Except.noConfusion h
  rename_i v16 hv16
  split at h
  · exact Except.noConfusion h
  rename_i v17 hv17
  split at h
  · exact Except.noConfusion h
  rename_i v18 hv18
  split at h
  · exact Except.noConfusion h
  rename_i v19 hv19
  split at h
  · exact Except.noConfusion h
  rename_i v20 hv20
  split at h
  · exact Except.noConfusion h
  rename_i v21 hv21
  split at h
  · exact Except.noConfusion h
  rename_i v22 hv22
  split at h
  · exact Except.noConfusion h
  rename_i v23 hv23
  split at h
  · exact Except.noConfusion h
  rename_i v24 hv24
  split at h
  · exact Except.noConfusion h
  rename_i v25 hv25
  injection h with h
  subst h
  rw [parse_metricsTry]
  simp only [bind, Except.bind, pure, Except.pure, hv1, hv2, hv3, hv4, hv5, hv6, hv7, hv8, hv9, hv10, hv11, hv12, hv13, hv14, hv15, hv16, hv17, hv18, hv19, hv20, hv21, hv22, hv23, hv24, hv25]
  rfl

lemma parse_metrics_ne_nil {now : ℚ} {d : Json} (h : parse_metrics now d ≠ []) :
    parse_metricsTry now d = .ok (parse_metrics now d) := by
  cases htry : parse_metricsTry now d with
  | ok l => simp [parse_metrics, htry]
  | error e => exact absurd (by simp [parse_metrics, htry]) h

lemma parse_metrics_time (t1 t2 : ℚ) (d : Json) :
    parse_metrics t2 d = setTimestamp t2 (parse_metrics t1 d) := by
  cases htry : parse_metricsTry t1 d with
  | ok l =>
    rw [parse_metrics, parse_metrics, htry, parse_metricsTry_time htry]
  | error e =>
    cases htry2 : parse_metricsTry t2 d with
    | ok l2 =>
      have h12 := @parse_metricsTry_time t2 t1 d l2 htry2
      rw [htry] at h12
      exact Except.noConfusion h12
    | error e2 =>
      rw [parse_metrics, parse_metrics, htry, htry2]
      rfl

lemma setTimestamp_cons (t : ℚ) (kv : String × Json) (rest : Mdict) :
    setTimestamp t (kv :: rest) =
    (if kv.1 = "timestamp" then (kv.1, Json.num t) else kv) :: setTimestamp t rest :=
  rfl

lemma filter_setTimestamp (t : ℚ) (l : Mdict) :
    (setTimestamp t l).filter (fun kv => kv.1 != "timestamp") =
    l.filter (fun kv => kv.1 != "timestamp") := by
  induction l with
  | nil => rfl
  | cons kv rest ih =>
    rw [setTimestamp_cons]
    by_cases hk : kv.1 = "timestamp"
    · rw [if_pos hk,
        List.filter_cons_of_neg (by simp [hk]),
        List.filter_cons_of_neg (by simp [hk])]
      exact ih
    · rw [if_neg hk,
        List.filter_cons_of_pos (by simp [hk]),
        List.filter_cons_of_pos (by simp [hk]),
        ih]

lemma build_failure (m : Mdict) (h : jTruthy (dget m "success" (.num 0)) = false) :
    build_metric_families m = .ok (baseFamilies m) := by
  simp only [build_metric_families, h, if_pos]

lemma mapM_ditem_ok (m : Mdict) :
    ∀ (l : List (String × String)),
    (∀ nk ∈ l, (jLookup m nk.2).isSome = true) →
    l.mapM (fun nk => (ditem m nk.2).map
      (fun v => (⟨nk.1, stdLabels, stdLabelVals m, v⟩ : Family))) =
    .ok (l.map (fun nk =>
      ⟨nk.1, stdLabels, stdLabelVals m, (jLookup m nk.2).getD .null⟩))
  | [], _ => rfl
  | nk :: rest, h => by
    have h1 := h nk (List.mem_cons_self _ _)
    obtain ⟨v, hv⟩ := Option.isSome_iff_exists.mp h1
    have hd : ditem m nk.2 = .ok v := by simp [ditem, hv]
    rw [List.mapM_cons,
      mapM_ditem_ok m rest (fun a ha => h a (List.mem_cons_of_mem _ ha))]
    simp [hd, hv, Except.map, bind, Except.bind, pure, Except.pure]

lemma build_success (m : Mdict)
    (hkeys : ∀ k ∈ specsList.map Prod.snd, (jLookup m k).isSome = true)
    (hs : jTruthy (dget m "success" (.num 0)) = true) :
    build_metric_families m =
      .ok (baseFamilies m ++ numFamilies m ++ plFamilies m ++ [infoFamily m]) := by
  have hmap := mapM_ditem_ok m specsList
    (fun nk hnk => hkeys nk.2 (List.mem_map_of_mem _ hnk))
  simp only [build_metric_families, hs, Bool.true_eq_false, if_false, hmap,
    numFamilies, plFamilies, infoFamily]

lemma run_result_summaryOk {fs : Bool} {proc : ProcResult}
    {loads : String → Option Json} {d : Json}
    (h : (run_speedtest fs proc loads).result = some d) : summaryOk d = true := by
  cases proc with
  | timeout => exact Option.noConfusion h
  | launchFailure => exact Option.noConfusion h
  | completed out err =>
    simp only [run_speedtest] at h
    split at h
    · split at h
      · exact Option.noConfusion h
      · split at h
        · exact Option.noConfusion h
        · split at h
          · rename_i hsum
            injection h with h2
            rw [← h2]
            exact hsum
          · exact Option.noConfusion h
    · split at h
      · exact Option.noConfusion h
      · split at h
        · rename_i hsum
          injection h with h2
          rw [← h2]
          exact hsum
        · exact Option.noConfusion h

lemma run_speedtest_false (out err : String) (loads : String → Option Json) :
    run_speedtest false (.completed out err) loads =
      (match findBrace out.data with
       | none => ⟨none, false⟩
       | some i =>
         match loads (suffixFrom out i) with
         | none => ⟨none, true⟩
         | some d => if summaryOk d then ⟨some d, true⟩ else ⟨none, true⟩) :=
  rfl

lemma run_speedtest_true (out err : String) (loads : String → Option Json) :
    run_speedtest true (.completed out err) loads =
      (match loads out with
       | none => ⟨none, false⟩
       | some d => if summaryOk d then ⟨some d, false⟩ else ⟨none, false⟩) :=
  rfl

lemma plFamilies_of_null {m : Mdict} (h : dget m "packet_loss" .null = .null) :
    plFamilies m = [] := by
  simp only [plFamilies, h]

lemma plFamilies_of_ne {m : Mdict} (h : dget m "packet_loss" .null ≠ .null) :
    plFamilies m = [⟨"speedtest_packet_loss", stdLabels, stdLabelVals m,
      dget m "packet_loss" .null⟩] := by
  cases hv : dget m "packet_loss" Json.null with
  | null => exact absurd hv h
  | bool b => simp only [plFamilies, hv]
  | num q => simp only [plFamilies, hv]
  | str s => simp only [plFamilies, hv]
  | arr xs => simp only [plFamilies, hv]
  | obj kvs => simp only [plFamilies, hv]

lemma mem_plFamilies {m : Mdict} {f : Family} (hf : f ∈ plFamilies m) :
    f = ⟨"speedtest_packet_loss", stdLabels, stdLabelVals m,
      dget m "packet_loss" .null⟩ ∧
    dget m "packet_loss" .null ≠ .null := by
  by_cases h : dget m "packet_loss" Json.null = Json.null
  · rw [plFamilies_of_null h] at hf
    exact absurd hf (List.not_mem_nil f)
  · rw [plFamilies_of_ne h] at hf
    rw [List.mem_singleton] at hf
    exact ⟨hf, h⟩

lemma mem_build_named_pl {m : Mdict} {f : Family}
    (hf : f ∈ baseFamilies m ++ numFamilies m ++ plFamilies m ++ [infoFamily m])
    (hname : f.name = "speedtest_packet_loss") :
    f ∈ plFamilies m := by
  rcases List.mem_append.mp hf with hf | hf
  · rcases List.mem_append.mp hf with hf | hf
    · rcases List.mem_append.mp hf with hf | hf
      · exfalso
        simp only [baseFamilies, List.mem_cons, List.mem_singleton,
          List.not_mem_nil, or_false] at hf
        rcases hf with rfl | rfl <;> simp at hname
      · exfalso
        obtain ⟨nk, hnk, rfl⟩ := List.mem_map.mp hf
        have hnames : ∀ nk ∈ specsList, nk.1 ≠ "speedtest_packet_loss" := by
          decide
        exact hnames nk hnk hname
    · exact hf
  · exfalso
    rw [List.mem_singleton] at hf
    subst hf
    simp [infoFamily] at hname

lemma mutexInv_step {n : ℕ} {outs : ℕ → Option Json × ℚ} {s s' : Sys n}
    (hs : MutexInv s) (h : Step outs s s') : MutexInv s' := by
  cases h with
  | entry i hi =>
    intro j hj
    by_cases hji : j = i
    · subst hji; simp [Function.update_apply] at hj
    · simp only [Function.update_apply, if_neg hji] at hj
      exact hs j hj
  | acquire i hi hl =>
    intro j hj
    by_cases hji : j = i
    · subst hji; rfl
    · simp only [Function.update_apply, if_neg hji] at hj
      exact absurd (hs j hj) (by rw [hl]; simp)
  | checkHit i r hi hw hr =>
    intro j hj
    by_cases hji : j = i
    · subst hji; simp [Function.update_apply] at hj
    · simp only [Function.update_apply, if_neg hji] at hj
      have h1 := hs j hj
      have h2 := hs i (Or.inl hi)
      rw [h2] at h1
      exact absurd (Option.some.inj h1).symm hji
  | checkMiss i hi hw =>
    intro j hj
    by_cases hji : j = i
    · rw [hji]
      exact hs i (Or.inl hi)
    · simp only [Function.update_apply, if_neg hji] at hj
      exact hs j hj
  | run i hi =>
    intro j hj
    by_cases hji : j = i
    · subst hji; simp [Function.update_apply] at hj
    · simp only [Function.update_apply, if_neg hji] at hj
      have h1 := hs j hj
      have h2 := hs i (Or.inr hi)
      rw [h2] at h1
      exact absurd (Option.some.inj h1).symm hji

lemma mutexInv_reach {n : ℕ} {outs : ℕ → Option Json × ℚ} {s s' : Sys n}
    (hs : MutexInv s) (h : Reach outs s s') : MutexInv s' := by
  induction h with
  | refl => exact hs
  | tail _ hstep ih => exact mutexInv_step ih hstep

lemma scenInv_step {n : ℕ} {outs : ℕ → Option Json × ℚ} {k0 : ℕ}
    {s s' : Sys (n + 1)} (hs : InvA k0 s ∨ InvB outs k0 s)
    (h : Step outs s s') : InvA k0 s' ∨ InvB outs k0 s' := by
  cases h with
  | entry i hi =>
    exfalso
    rcases hs with ⟨_, _, _, h0, hj⟩ | ⟨_, _, h0, hj⟩
    · by_cases hi0 : i = 0
      · rw [hi0, h0] at hi; exact PC.noConfusion hi
      · rw [hj i hi0] at hi; exact PC.noConfusion hi
    · by_cases hi0 : i = 0
      · rw [hi0, h0] at hi; exact PC.noConfusion hi
      · rcases hj i hi0 with hw | hw | hw <;>
          (rw [hw] at hi; exact PC.noConfusion hi)
  | acquire i hi hl =>
    rcases hs with ⟨hlock, _, _, _, _⟩ | ⟨hinv, hlast, h0, hj⟩
    · rw [hlock] at hl; exact Option.noConfusion hl
    · right
      have hi0 : i ≠ 0 := by
        intro hi0; rw [hi0, h0] at hi; exact PC.noConfusion hi
      have hwi : s.thr i = waiterInit := by
        rcases hj i hi0 with hw | hw | hw
        · exact hw
        · rw [hw] at hi; exact absurd hi (by simp)
        · rw [hw] at hi; exact absurd hi (by simp)
      refine ⟨hinv, hlast, ?_, ?_⟩
      · simpa [Function.update_apply, Ne.symm hi0] using h0
      · intro j hj0
        by_cases hji : j = i
        · subst hji
          right; left
          simp [Function.update_apply, hwi, waiterInit]
        · simp only [Function.update_apply, if_neg hji]
          exact hj j hj0
  | checkHit i r hi hw hr =>
    rcases hs with ⟨_, _, _, h0, hj⟩ | ⟨hinv, hlast, h0, hj⟩
    · exfalso
      by_cases hi0 : i = 0
      · rw [hi0, h0] at hi; exact PC.noConfusion hi
      · rw [hj i hi0] at hi; exact PC.noConfusion hi
    · right
      have hi0 : i ≠ 0 := by
        intro hi0; rw [hi0, h0] at hi; exact PC.noConfusion hi
      have hr' : r = runResult outs k0 := by
        rw [hlast] at hr; exact (Option.some.inj hr).symm
      have hci : s.thr i = ⟨.check, true, none⟩ := by
        rcases hj i hi0 with hc | hc | hc
        · rw [hc] at hi; exact absurd hi (by simp [waiterInit])
        · exact hc
        · rw [hc] at hi; exact absurd hi (by simp)
      refine ⟨hinv, hlast, ?_, ?_⟩
      · simpa [Function.update_apply, Ne.symm hi0] using h0
      · intro j hj0
        by_cases hji : j = i
        · subst hji
          right; right
          simp [Function.update_apply, hci, hr']
        · simp only [Function.update_apply, if_neg hji]
          exact hj j hj0
  | checkMiss i hi hw =>
    exfalso
    rcases hs with ⟨_, _, _, h0, hj⟩ | ⟨hinv, hlast, h0, hj⟩
    · by_cases hi0 : i = 0
      · rw [hi0, h0] at hi; exact PC.noConfusion hi
      · rw [hj i hi0] at hi; exact PC.noConfusion hi
    · have hi0 : i ≠ 0 := by
        intro hi0; rw [hi0, h0] at hi; exact PC.noConfusion hi
      have hci : s.thr i = ⟨.check, true, none⟩ := by
        rcases hj i hi0 with hc | hc | hc
        · rw [hc] at hi; exact absurd hi (by simp [waiterInit])
        · exact hc
        · rw [hc] at hi; exact absurd hi (by simp)
      rcases hw with hw | hw
      · rw [hci] at hw; exact Bool.noConfusion hw
      · rw [hlast] at hw; exact Option.noConfusion hw
  | run i hi =>
    rcases hs with ⟨hlock, hrun, hinv, h0, hj⟩ | ⟨hinv, hlast, h0, hj⟩
    · have hi0 : i = 0 := by
        by_contra hi0
        rw [hj i hi0] at hi; exact PC.noConfusion hi
      subst hi0
      right
      refine ⟨by rw [hinv], by rw [hinv], ?_, ?_⟩
      · rw [hinv]
        simp [Function.update_apply, h0]
      · intro j hj0
        left
        simp only [Function.update_apply, if_neg hj0]
        exact hj j hj0
    · exfalso
      by_cases hi0 : i = 0
      · rw [hi0, h0] at hi; exact PC.noConfusion hi
      · rcases hj i hi0 with hc | hc | hc <;> rw [hc] at hi <;>
          exact PC.noConfusion hi

lemma scenInv_reach {n : ℕ} {outs : ℕ → Option Json × ℚ} {k0 : ℕ}
    {l0 : Option Mdict} {s : Sys (n + 1)}
    (h : Reach outs (initInflight n k0 l0) s) :
    InvA k0 s ∨ InvB outs k0 s := by
  induction h with
  | refl =>
    left
    refine ⟨rfl, rfl, rfl, by simp [initInflight], ?_⟩
    intro j hj0
    simp [initInflight, if_neg hj0]
  | tail _ hstep ih => exact scenInv_step ih hstep


lemma fdiv_one_eq (n : ℤ) : n.fdiv 1 = n := Int.fdiv_one n

lemma roundHalfEven_intCast (n : ℤ) : roundHalfEven (n : ℚ) = n := by
  simp only [roundHalfEven, Rat.num_intCast, Rat.den_intCast, Nat.cast_one,
    fdiv_one_eq, sub_self]
  norm_num

/-! ## Claims -/

/-- C1: in on_demand mode, for every set of N scrape requests arriving while
one measurement is in flight, exactly one external-process invocation occurs;
no two measurement invocations ever execute concurrently (from the process
start state, two threads inside the invocation region coincide), and all N
scrapes observe the identical metrics dict produced by that single in-flight
run. -/
theorem ondemand_single_flight (outs : ℕ → Option Json × ℚ) :
    (∀ (n : ℕ) (s : Sys n), Reach outs (initAll n) s →
      ∀ i j : Fin n, (s.thr i).pc = .invoke → (s.thr j).pc = .invoke → i = j) ∧
    (∀ (n k0 : ℕ) (l0 : Option Mdict) (s : Sys (n + 1)),
      Reach outs (initInflight n k0 l0) s →
      (∀ i, (s.thr i).pc = .done) →
      s.invocations = k0 + 1 ∧
      ∀ i, (s.thr i).res = some (runResult outs k0)) := by
  constructor
  · intro n s hreach i j hi hj
    have hminit : MutexInv (initAll n) := by
      intro i hi
      rcases hi with hi | hi <;> exact PC.noConfusion hi
    have hm := mutexInv_reach hminit hreach
    have h1 := hm i (Or.inr hi)
    have h2 := hm j (Or.inr hj)
    rw [h1] at h2
    exact Option.some.inj h2
  · intro n k0 l0 s hreach hdone
    rcases scenInv_reach hreach with hA | hB
    · exact absurd (hdone 0) (by rw [hA.2.2.2.1]; exact fun h => PC.noConfusion h)
    · obtain ⟨hinv, hlast, h0, hj⟩ := hB
      refine ⟨hinv, ?_⟩
      intro i
      by_cases hi0 : i = 0
      · rw [hi0, h0]
      · rcases hj i hi0 with hc | hc | hc
        · exact absurd (hdone i) (by rw [hc]; exact fun h => PC.noConfusion h)
        · exact absurd (hdone i) (by rw [hc]; exact fun h => PC.noConfusion h)
        · rw [hc]

/-- Witness for C1: thread 0 in flight (failing run, clock 5), one waiter;
after the explicit three-step schedule both threads are done with the same
failure dict and exactly one invocation happened. -/
theorem ondemand_single_flight_witness :
    wS3.invocations = 1 ∧
    (wS3.thr 0).res = some (failureDict 5) ∧
    (wS3.thr 1).res = some (failureDict 5) := by
  have h := (ondemand_single_flight outsW).2 1 0 none wS3
    (Relation.ReflTransGen.tail (Relation.ReflTransGen.tail
      (Relation.ReflTransGen.single (Step.run wS0 0 rfl))
      (Step.acquire wS1 1 rfl rfl))
      (Step.checkHit wS2 1 (runResult outsW 0) rfl rfl rfl))
    (by intro i; fin_cases i <;> rfl)
  exact ⟨h.1, h.2 0, h.2 1⟩

/-- C2: for every successful measurement payload, the reported download and
upload bandwidth values equal `round(bandwidth_bytes_per_sec * 8 / 1_000_000, 2)`
(bytes/sec to megabits/sec, rounded to 2 decimal places). -/
theorem bandwidth_mbps_formula (now : ℚ) (d : Json) (bwD bwU : Json) (qD qU : ℚ)
    (hD : subscript2 d "download" "bandwidth" = .ok bwD)
    (hDq : asNum bwD = some qD)
    (hU : subscript2 d "upload" "bandwidth" = .ok bwU)
    (hUq : asNum bwU = some qU)
    (hne : parse_metrics now d ≠ []) :
    jLookup (parse_metrics now d) "download_mbps" =
      some (.num (pyRound2 (qD * 8 / 1000000))) ∧
    jLookup (parse_metrics now d) "upload_mbps" =
      some (.num (pyRound2 (qU * 8 / 1000000))) := by
  have htry := parse_metrics_ne_nil hne
  obtain ⟨-, ⟨bw, q, hbw, hq, hlook⟩, ⟨bw2, q2, hbw2, hq2, hlook2⟩, -, -, -, -⟩ :=
    parse_ok_facts htry
  rw [hbw] at hD
  injection hD with e1
  subst e1
  rw [hq] at hDq
  injection hDq with e2
  subst e2
  rw [hbw2] at hU
  injection hU with e3
  subst e3
  rw [hq2] at hUq
  injection hUq with e4
  subst e4
  exact ⟨hlook, hlook2⟩

/-- Witness for C2 at the payload `d0`: 12 500 000 bytes/s is reported as
100 Mbps and 2 500 000 bytes/s as 20 Mbps. -/
theorem bandwidth_mbps_formula_witness :
    jLookup (parse_metrics 5 d0) "download_mbps" = some (.num 100) ∧
    jLookup (parse_metrics 5 d0) "upload_mbps" = some (.num 20) := by
  have h := bandwidth_mbps_formula 5 d0 (.num 12500000) (.num 2500000)
    12500000 2500000 rfl rfl rfl rfl
    (fun hh => absurd (congrArg List.length hh) (by decide))
  have e1 : pyRound2 ((12500000 : ℚ) * 8 / 1000000) = 100 := by
    have h1 : (12500000 : ℚ) * 8 / 1000000 = 100 := by norm_num
    have h2 : (100 : ℚ) * 100 = ((10000 : ℤ) : ℚ) := by norm_num
    rw [pyRound2, h1, h2, roundHalfEven_intCast]
    norm_num
  have e2 : pyRound2 ((2500000 : ℚ) * 8 / 1000000) = 20 := by
    have h1 : (2500000 : ℚ) * 8 / 1000000 = 20 := by norm_num
    have h2 : (20 : ℚ) * 100 = ((2000 : ℤ) : ℚ) := by norm_num
    rw [pyRound2, h1, h2, roundHalfEven_intCast]
    norm_num
  rw [e1, e2] at h
  exact h

/-- C3 counterexample: the payload `d1` — complete, accepted by the Runner,
mapped successfully — has its `packetLoss` field present (stored `null`),
yet the built families contain no packet-loss gauge: `data.get("packetLoss")`
(exporter.py:144) returns `None` for a stored JSON `null`, and the builder's
`is not None` check (line 265) skips the gauge, refuting the claim's
"present in the Metric Set iff present in the source payload". -/
theorem packet_loss_null_field_no_gauge :
    (run_speedtest true (.completed "x" "") (fun _ => some d1)).result
        = some d1 ∧
    parse_metrics 5 d1 ≠ [] ∧
    (jGet? d1 "packetLoss").isSome = true ∧
    ∃ fams, build_metric_families (parse_metrics 5 d1) = .ok fams ∧
      ∀ f ∈ fams, ¬ f.name = "speedtest_packet_loss" := by
  refine ⟨rfl, fun hh => absurd (congrArg List.length hh) (by decide), rfl, ?_⟩
  have hkeys : ∀ k ∈ specsList.map Prod.snd,
      (jLookup (parse_metrics 5 d1) k).isSome = true := by decide
  have hsOk : jTruthy (dget (parse_metrics 5 d1) "success" (.num 0)) = true := rfl
  refine ⟨_, build_success (parse_metrics 5 d1) hkeys hsOk, ?_⟩
  intro f hf hname
  have hfp := mem_build_named_pl hf hname
  rw [plFamilies_of_null
    (show dget (parse_metrics 5 d1) "packet_loss" Json.null = Json.null
      from rfl)] at hfp
  exact absurd hfp (List.not_mem_nil f)

/-- C3 amended: for every payload that maps successfully, the packet-loss
gauge is present in the built metric families iff the `packetLoss` field is
present with a non-null value in the source payload (Python `dict.get`
conflates a stored `None` with absence at exporter.py:144); when emitted it
carries exactly the payload's value, and absence — or a null value — is
never rendered as 0.0 (no gauge is emitted at all). -/
theorem packet_loss_iff_nonnull (now : ℚ) (d : Json)
    (hne : parse_metrics now d ≠ []) :
    ∃ fams, build_metric_families (parse_metrics now d) = .ok fams ∧
      ((∃ f ∈ fams, f.name = "speedtest_packet_loss") ↔
        (∃ v, jGet? d "packetLoss" = some v ∧ v ≠ .null)) ∧
      (∀ f ∈ fams, f.name = "speedtest_packet_loss" →
        some f.value = jGet? d "packetLoss") := by
  have htry := parse_metrics_ne_nil hne
  obtain ⟨⟨kvs, hd, hpll⟩, -, -, hsucc, -, hkeys, -⟩ := parse_ok_facts htry
  have hsOk : jTruthy (dget (parse_metrics now d) "success" (.num 0)) = true := by
    simp [dget, hsucc, jTruthy]
  have hb := build_success (parse_metrics now d) hkeys hsOk
  have hjget : jGet? d "packetLoss" = jLookup kvs "packetLoss" := by
    rw [hd]
    rfl
  have hdget : dget (parse_metrics now d) "packet_loss" Json.null =
      (jLookup kvs "packetLoss").getD .null := by
    simp [dget, hpll]
  by_cases hnull : (jLookup kvs "packetLoss").getD .null = Json.null
  · have hdnull : dget (parse_metrics now d) "packet_loss" Json.null = .null := by
      rw [hdget, hnull]
    refine ⟨_, hb, ?_, ?_⟩
    · constructor
      · rintro ⟨f, hf, hname⟩
        have hfp := mem_build_named_pl hf hname
        rw [plFamilies_of_null hdnull] at hfp
        exact absurd hfp (List.not_mem_nil f)
      · rintro ⟨v, hv, hvnn⟩
        rw [hjget] at hv
        rw [hv] at hnull
        exact absurd hnull hvnn
    · intro f hf hname
      have hfp := mem_build_named_pl hf hname
      rw [plFamilies_of_null hdnull] at hfp
      exact absurd hfp (List.not_mem_nil f)
  · have hsome : ∃ v, jLookup kvs "packetLoss" = some v ∧ v ≠ Json.null := by
      cases hv : jLookup kvs "packetLoss" with
      | none =>
        rw [hv] at hnull
        exact absurd rfl hnull
      | some v =>
        refine ⟨v, rfl, ?_⟩
        intro hvn
        rw [hv, hvn] at hnull
        exact hnull rfl
    obtain ⟨v, hv, hvnn⟩ := hsome
    have hdv : dget (parse_metrics now d) "packet_loss" Json.null = v := by
      rw [hdget, hv]
      rfl
    have hdnn : dget (parse_metrics now d) "packet_loss" Json.null ≠ .null := by
      rw [hdv]
      exact hvnn
    refine ⟨_, hb, ?_, ?_⟩
    · constructor
      · intro _
        exact ⟨v, by rw [hjget, hv], hvnn⟩
      · intro _
        refine ⟨⟨"speedtest_packet_loss", stdLabels,
          stdLabelVals (parse_metrics now d), v⟩, ?_, rfl⟩
        have hmem : (⟨"speedtest_packet_loss", stdLabels,
            stdLabelVals (parse_metrics now d), v⟩ : Family) ∈
            plFamilies (parse_metrics now d) := by
          rw [plFamilies_of_ne hdnn, hdv]
          exact List.mem_singleton_self _
        exact List.mem_append.mpr (Or.inl (List.mem_append.mpr (Or.inr hmem)))
    · intro f hf hname
      have hfp := mem_build_named_pl hf hname
      obtain ⟨hfe, -⟩ := mem_plFamilies hfp
      rw [hfe, hjget, hv, hdv]

/-- Witness for C3 amended at the payload `d0`, whose `packetLoss` is the
non-null value 1. -/
theorem packet_loss_iff_nonnull_witness :
    ∃ fams, build_metric_families (parse_metrics 5 d0) = .ok fams ∧
      ((∃ f ∈ fams, f.name = "speedtest_packet_loss") ↔
        (∃ v, jGet? d0 "packetLoss" = some v ∧ v ≠ .null)) ∧
      (∀ f ∈ fams, f.name = "speedtest_packet_loss" →
        some f.value = jGet? d0 "packetLoss") :=
  packet_loss_iff_nonnull 5 d0
    (fun hh => absurd (congrArg List.length hh) (by decide))

/-- C4 counterexample: on a first run whose output contains a `\x7b` followed
by text the (abstract) JSON parser rejects, the Runner creates the first-run
marker even though the run fails — contradicting "the marker is created if
and only if the run reaches a successful parse". -/
theorem first_run_marker_despite_parse_failure :
    (run_speedtest false (.completed "ab\x7bjunk" "") (fun _ => none)).markerCreated
        = true ∧
    (run_speedtest false (.completed "ab\x7bjunk" "") (fun _ => none)).result
        = none :=
  ⟨rfl, rfl⟩

/-- C4 amended: on a first-run invocation the marker is created iff a `\x7b`
is located in the captured output — regardless of whether the subsequent
parse succeeds (the `touch` at exporter.py:75 precedes `json.loads` at
line 78); in particular, with no `\x7b` the Runner fails without creating
the marker. -/
theorem first_run_marker_iff_brace (fs : Bool) (proc : ProcResult)
    (loads : String → Option Json) :
    ((run_speedtest fs proc loads).markerCreated = true ↔
      (fs = false ∧ ∃ out err i, proc = .completed out err ∧
        findBrace out.data = some i)) ∧
    (∀ out err, fs = false → findBrace out.data = none →
      run_speedtest fs (.completed out err) loads = ⟨none, false⟩) := by
  constructor
  · constructor
    · intro hm
      cases fs with
      | true =>
        exfalso
        cases proc with
        | timeout => exact Bool.noConfusion hm
        | launchFailure => exact Bool.noConfusion hm
        | completed out err =>
          rw [run_speedtest_true] at hm
          cases hl : loads out with
          | none => rw [hl] at hm; exact Bool.noConfusion hm
          | some dd =>
            simp only [hl] at hm
            by_cases hs : summaryOk dd = true
            · rw [if_pos hs] at hm
              exact Bool.noConfusion hm
            · rw [if_neg hs] at hm
              exact Bool.noConfusion hm
      | false =>
        cases proc with
        | timeout => exact Bool.noConfusion hm
        | launchFailure => exact Bool.noConfusion hm
        | completed out err =>
          rw [run_speedtest_false] at hm
          cases hfb : findBrace out.data with
          | none =>
            simp only [hfb] at hm
            exact Bool.noConfusion hm
          | some i => exact ⟨rfl, out, err, i, rfl, hfb⟩
    · rintro ⟨hfs, out, err, i, hproc, hfb⟩
      subst hfs
      subst hproc
      rw [run_speedtest_false]
      simp only [hfb]
      cases hl : loads (suffixFrom out i) with
      | none => rfl
      | some dd =>
        simp only [hl]
        by_cases hs : summaryOk dd = true
        · rw [if_pos hs]
        · rw [if_neg hs]
  · intro out err hfs hfb
    subst hfs
    rw [run_speedtest_false]
    simp only [hfb]

/-- Witness for C4 amended: a first run with no `\x7b` in the output returns
Failure and creates no marker. -/
theorem first_run_marker_iff_brace_witness :
    run_speedtest false (.completed "ab" "") (fun _ => none) = ⟨none, false⟩ :=
  (first_run_marker_iff_brace false (.completed "ab" "") (fun _ => none)).2
    "ab" "" rfl (by decide)

/-- C5: for every Runner invocation and every external-process behaviour
(timeout, launch failure, missing `\x7b` on a first run, unparseable payload,
missing required field), the Runner returns a Failure value; `run_speedtest`
is a total function into `RunOutcome`, so no exception crosses its boundary
and callers only observe a result-or-Failure value. -/
theorem runner_never_throws (fs : Bool) (loads : String → Option Json)
    (out err raw : String) (d : Json) :
    ((run_speedtest fs .timeout loads).result = none) ∧
    ((run_speedtest fs .launchFailure loads).result = none) ∧
    (fs = false → findBrace out.data = none →
      (run_speedtest fs (.completed out err) loads).result = none) ∧
    (effectiveRaw fs (.completed out err) = some raw → loads raw = none →
      (run_speedtest fs (.completed out err) loads).result = none) ∧
    (effectiveRaw fs (.completed out err) = some raw → loads raw = some d →
      summaryOk d = false →
      (run_speedtest fs (.completed out err) loads).result = none) := by
  refine ⟨rfl, rfl, ?_, ?_, ?_⟩
  · intro hfs hfb
    subst hfs
    rw [run_speedtest_false]
    simp only [hfb]
  · intro hraw hld
    cases fs with
    | true =>
      injection hraw with e
      subst e
      rw [run_speedtest_true]
      simp only [hld]
    | false =>
      cases hfb : findBrace out.data with
      | none =>
        rw [show effectiveRaw false (.completed out err) =
          (findBrace out.data).map (suffixFrom out) from rfl, hfb] at hraw
        exact Option.noConfusion hraw
      | some i =>
        rw [show effectiveRaw false (.completed out err) =
          (findBrace out.data).map (suffixFrom out) from rfl, hfb] at hraw
        injection hraw with e
        rw [← e] at hld
        rw [run_speedtest_false]
        simp only [hfb, hld]
  · intro hraw hld hsum
    cases fs with
    | true =>
      injection hraw with e
      subst e
      rw [run_speedtest_true]
      simp only [hld]
      rw [hsum]
      simp
    | false =>
      cases hfb : findBrace out.data with
      | none =>
        rw [show effectiveRaw false (.completed out err) =
          (findBrace out.data).map (suffixFrom out) from rfl, hfb] at hraw
        exact Option.noConfusion hraw
      | some i =>
        rw [show effectiveRaw false (.completed out err) =
          (findBrace out.data).map (suffixFrom out) from rfl, hfb] at hraw
        injection hraw with e
        rw [← e] at hld
        rw [run_speedtest_false]
        simp only [hfb, hld]
        rw [hsum]
        simp

/-- Witness for C5: each failure class evaluated at a concrete input. -/
theorem runner_never_throws_witness :
    (run_speedtest true .timeout (fun _ => none)).result = none ∧
    (run_speedtest true .launchFailure (fun _ => none)).result = none ∧
    (run_speedtest false (.completed "x" "") (fun _ => none)).result = none ∧
    (run_speedtest true (.completed "x" "") (fun _ => none)).result = none ∧
    (run_speedtest true (.completed "x" "")
      (fun _ => some Json.null)).result = none := by
  refine ⟨?_, ?_, ?_, ?_, ?_⟩
  · exact (runner_never_throws true (fun _ => none) "x" "" "x" .null).1
  · exact (runner_never_throws true (fun _ => none) "x" "" "x" .null).2.1
  · exact (runner_never_throws false (fun _ => none) "x" "" "x" .null).2.2.1
      rfl (by decide)
  · exact (runner_never_throws true (fun _ => none) "x" "" "x" .null).2.2.2.1
      rfl rfl
  · exact (runner_never_throws true (fun _ => some .null) "x" "" "x"
      .null).2.2.2.2 rfl rfl rfl

/-- C6: a failed measurement attempt stores exactly
`{"success": 0.0, "timestamp": now}`, and on every dict whose success value
is falsy the builder emits exactly the success gauge and the timestamp gauge
and nothing else (no bandwidth, latency, byte-count, packet-loss or info
families). -/
theorem failure_metric_set_exact (t : ℚ) (m : Mdict)
    (hfalsy : jTruthy (dget m "success" (.num 0)) = false) :
    computeResult none t = failureDict t ∧
    build_metric_families m = .ok
      [⟨"speedtest_scrape_success", [], [], dget m "success" (.num 0)⟩,
       ⟨"speedtest_last_run_timestamp", [], [], dget m "timestamp" (.num 0)⟩] ∧
    build_metric_families (failureDict t) = .ok
      [⟨"speedtest_scrape_success", [], [], .num 0⟩,
       ⟨"speedtest_last_run_timestamp", [], [], .num t⟩] := by
  refine ⟨rfl, ?_, ?_⟩
  · exact build_failure m hfalsy
  · exact build_failure (failureDict t) rfl

/-- Witness for C6 at `t = 5` and the empty dict. -/
theorem failure_metric_set_exact_witness :
    build_metric_families (failureDict 5) = .ok
      [⟨"speedtest_scrape_success", [], [], .num 0⟩,
       ⟨"speedtest_last_run_timestamp", [], [], .num 5⟩] :=
  (failure_metric_set_exact 5 [] rfl).2.2

/-- C7: a payload that parsed but is missing a required field at mapping time
(so `parse_metrics` returns the empty dict) degrades to the failure-branch
output — success 0.0 with the current timestamp — and the builder then emits
no partial metrics. -/
theorem mapping_failure_degrades (now : ℚ) (d : Json)
    (h : parse_metrics now d = []) :
    computeResult (some d) now = failureDict now ∧
    build_metric_families (computeResult (some d) now) = .ok
      [⟨"speedtest_scrape_success", [], [], .num 0⟩,
       ⟨"speedtest_last_run_timestamp", [], [], .num now⟩] := by
  have h1 : computeResult (some d) now = failureDict now := by
    simp [computeResult, h]
  refine ⟨h1, ?_⟩
  rw [h1]
  exact build_failure (failureDict now) rfl

/-- Witness for C7 at the payload `null` (every field access fails). -/
theorem mapping_failure_degrades_witness :
    computeResult (some .null) 5 = failureDict 5 :=
  (mapping_failure_degrades 5 .null rfl).1

/-- C8 counterexample: `parse_metrics` reads the wall clock (`time.time()` at
exporter.py:154), so two calls on the same input with different clock
readings return different outputs — the Mapper is not referentially
transparent in its input alone. -/
theorem mapper_output_depends_on_clock :
    parse_metrics 0 d0 ≠ parse_metrics 1 d0 := by
  intro h
  have e0 : jLookup (parse_metrics 0 d0) "timestamp" = some (.num 0) := rfl
  have e1 : jLookup (parse_metrics 1 d0) "timestamp" = some (.num 1) := rfl
  rw [h, e1] at e0
  have e2 := Json.num.inj (Option.some.inj e0)
  norm_num at e2

/-- C8 amended: the Mapper mutates no shared state and is deterministic
given its input and the current clock reading; every output field except
`timestamp` depends on the input alone. -/
theorem mapper_pure_modulo_timestamp (t1 t2 : ℚ) (d : Json) :
    (parse_metrics t1 d).filter (fun kv => kv.1 != "timestamp") =
    (parse_metrics t2 d).filter (fun kv => kv.1 != "timestamp") := by
  rw [parse_metrics_time t1 t2 d, filter_setTimestamp]

/-- C9 (spec-modelled): in cached mode a scrape before any cache write yields
`{success: 0.0, timestamp: 0.0}`, which differs from the failed-run dict for
every nonzero current timestamp. -/
theorem cached_absent_distinguishes (now t : ℚ) (ht : t ≠ 0) :
    cachedCollect .absent now = [("success", .num 0), ("timestamp", .num 0)] ∧
    cachedCollect .absent now ≠ computeResult none t := by
  refine ⟨rfl, ?_⟩
  intro h
  have e0 : jLookup (cachedCollect .absent now) "timestamp" = some (.num 0) := rfl
  have e1 : jLookup (computeResult none t) "timestamp" = some (.num t) := rfl
  rw [h, e1] at e0
  exact ht (Json.num.inj (Option.some.inj e0))

/-- Witness for C9 at `now = 3`, failed-run timestamp 5. -/
theorem cached_absent_distinguishes_witness :
    cachedCollect .absent 3 = [("success", .num 0), ("timestamp", .num 0)] ∧
    cachedCollect .absent 3 ≠ computeResult none 5 :=
  cached_absent_distinguishes 3 5 (by norm_num)

/-- C10 counterexample: on a dict with a truthy success value but missing
measurement keys, the builder raises `KeyError` (`m[key]` at exporter.py:261)
instead of producing well-formed families — so the claim fails for arbitrary
dicts. -/
theorem builder_keyerror_on_partial_dict :
    build_metric_families [("success", .num 1)] = .error .keyError := rfl

/-- C10 amended: for every dict the builder actually receives from
`_collect` — any dict with a falsy success value, or any dict containing all
sixteen numeric measurement keys — the families are well formed: they begin
with the success and last-run-timestamp gauges (missing `success`/`timestamp`
defaulting to 0.0), and every measurement gauge carries the label values of
`stdLabelVals`, which default missing label fields to `"unknown"`. -/
theorem builder_wellformed_on_collector_dicts (m : Mdict)
    (h : jTruthy (dget m "success" (.num 0)) = false ∨
      (∀ k ∈ specsList.map Prod.snd, (jLookup m k).isSome = true)) :
    ∃ fams, build_metric_families m = .ok fams ∧
      fams.take 2 =
        [⟨"speedtest_scrape_success", [], [], dget m "success" (.num 0)⟩,
         ⟨"speedtest_last_run_timestamp", [], [], dget m "timestamp" (.num 0)⟩] ∧
      (∀ f ∈ fams, f.labels = stdLabels → f.labelVals = stdLabelVals m) := by
  cases htr : jTruthy (dget m "success" (.num 0)) with
  | false =>
    refine ⟨baseFamilies m, build_failure m htr, rfl, ?_⟩
    intro f hf hlab
    exfalso
    simp only [baseFamilies, List.mem_cons, List.mem_singleton,
      List.not_mem_nil, or_false] at hf
    rcases hf with rfl | rfl <;> simp [stdLabels] at hlab
  | true =>
    have hkeys : ∀ k ∈ specsList.map Prod.snd, (jLookup m k).isSome = true := by
      rcases h with h | h
      · rw [htr] at h
        exact Bool.noConfusion h
      · exact h
    refine ⟨_, build_success m hkeys htr, rfl, ?_⟩
    intro f hf hlab
    rcases List.mem_append.mp hf with hf | hf
    · rcases List.mem_append.mp hf with hf | hf
      · rcases List.mem_append.mp hf with hf | hf
        · exfalso
          simp only [baseFamilies, List.mem_cons, List.mem_singleton,
            List.not_mem_nil, or_false] at hf
          rcases hf with rfl | rfl <;> simp [stdLabels] at hlab
        · obtain ⟨nk, hnk, rfl⟩ := List.mem_map.mp hf
          rfl
      · exact (mem_plFamilies hf).1 ▸ rfl
    · exfalso
      rw [List.mem_singleton] at hf
      subst hf
      simp [infoFamily, infoLabels, stdLabels] at hlab

/-- Witness for C10 amended: the empty dict (parse failure) and the failure
dict both yield exactly the two meta gauges. -/
theorem builder_wellformed_witness :
    build_metric_families (failureDict 7) = .ok (baseFamilies (failureDict 7)) ∧
    (baseFamilies (failureDict 7)).take 2 =
      [⟨"speedtest_scrape_success", [], [], .num 0⟩,
       ⟨"speedtest_last_run_timestamp", [], [], .num 7⟩] := by
  obtain ⟨fams, h1, h2, h3⟩ :=
    builder_wellformed_on_collector_dicts (failureDict 7) (Or.inl rfl)
  have hb : build_metric_families (failureDict 7) =
      .ok (baseFamilies (failureDict 7)) := build_failure (failureDict 7) rfl
  refine ⟨hb, ?_⟩
  rw [hb] at h1
  have e : baseFamilies (failureDict 7) = fams := Except.ok.inj h1
  rw [← e] at h2
  exact h2

end Speedtest
